import Mathlib

/-!
Verification of the dwell-times backend: session reconstruction
(`dwell_time_engine.py`), ingestion dwell computation (`csv_processor.py`),
KPI median (`analytics_service.py`) and hour-of-day foot-traffic bucketing
(`chart_analytics.py`), shallowly embedded over lists.

Event timestamps are integers counting microseconds on an absolute
timeline — exactly the precision of Python `datetime` values, so every
timestamp the engine can see is represented faithfully.  One second is
1000000 microseconds.
-/

namespace DwellTimes

/-- One camera event row as used by `DwellTimeEngine._calculate_sessions`:
the DataFrame columns person_id, camera_id, event_type, timestamp
(= processed_timestamp, in microseconds). -/
structure Event where
  person_id : String
  camera_id : String
  event_type : String
  timestamp : ℤ
deriving Repr, DecidableEq

/-- `int((exit - entry).total_seconds())` on a difference of `d`
microseconds: `total_seconds()` is `d / 10^6` seconds and Python's `int`
truncates toward zero. -/
def pyInt (d : ℤ) : ℤ := Int.tdiv d 1000000

/-- `timestamp.strftime('%Y%m%d_%H%M%S')`: the session id embeds the entry
time at whole-second precision only.  The formatted calendar second of a
timestamp of `t` microseconds is the floor of `t / 10^6`, and two
timestamps format identically iff they have the same calendar second. -/
def strftimeSecond (t : ℤ) : ℤ := Int.fdiv t 1000000

/-- The inner `exit_idx += 1; continue` steps of
`DwellTimeEngine._match_entries_exits`: while the head exit is strictly
earlier than the current entry's timestamp `t`, the exit is an orphan and
is dropped. -/
def dropEarlyExits (t : ℤ) : List Event → List Event
  | [] => []
  | x :: xs => if x.timestamp < t then dropEarlyExits t xs else x :: xs

/-- `DwellTimeEngine._match_entries_exits`: two-pointer walk over the entry
list and the exit list.  For the current entry, exits strictly earlier than
it are dropped (`dropEarlyExits`); then if the entry is strictly earlier
than the surviving exit the pair is emitted and both cursors advance,
otherwise (equal timestamps, the final `else` of the loop) only the entry
cursor advances and the exit is kept for the next entry.  The loop ends as
soon as either list is exhausted. -/
def matchEntriesExits : List Event → List Event → List (Event × Event)
  | [], _ => []
  | e :: es, xs =>
    match dropEarlyExits e.timestamp xs with
    | [] => []
    | x :: xs' =>
      if e.timestamp < x.timestamp then
        (e, x) :: matchEntriesExits es xs'
      else
        matchEntriesExits es (x :: xs')

/-- Stable sort of events by timestamp, modelling
`group.sort_values('timestamp')`. -/
def sortByTime (events : List Event) : List Event :=
  List.insertionSort (fun a b => a.timestamp ≤ b.timestamp) events

/-- The session dict built in `DwellTimeEngine._calculate_sessions`.
The `session_id` string `f"{person_id}_{camera_id}_{strftime}"` is modelled
as the triple of its three components (for one fixed (person, camera) pair
the string and the triple determine each other). -/
structure SessionData where
  session_id : String × String × ℤ
  person_id : String
  camera_id : String
  entry_time : ℤ
  exit_time : ℤ
  dwell_duration : ℤ
deriving Repr, DecidableEq

/-- The body of the `for entry, exit_event in session_pairs` loop of
`_calculate_sessions`: dwell is `int((exit - entry).total_seconds())`. -/
def mkSessionData (p c : String) (entry exitEvent : Event) : SessionData :=
  { session_id := (p, c, strftimeSecond entry.timestamp)
    person_id := p
    camera_id := c
    entry_time := entry.timestamp
    exit_time := exitEvent.timestamp
    dwell_duration := pyInt (exitEvent.timestamp - entry.timestamp) }

/-- The per-(person, camera) body of `_calculate_sessions`: sort the group
by timestamp, split into entry and exit rows, match, and build the session
dicts. -/
def sessionsForGroup (p c : String) (events : List Event) : List SessionData :=
  let sorted := sortByTime events
  let entries := sorted.filter (fun e => e.event_type = "entry")
  let exits := sorted.filter (fun e => e.event_type = "exit")
  (matchEntriesExits entries exits).map (fun pr => mkSessionData p c pr.1 pr.2)

/-- The distinct (person_id, camera_id) keys of
`events_df.groupby(['person_id','camera_id'])`, in first-occurrence order.
(pandas emits groups in sorted key order; the key order only permutes whole
groups and is irrelevant to every property below.) -/
def groupKeys (events : List Event) : List (String × String) :=
  (events.map (fun e => (e.person_id, e.camera_id))).foldl
    (fun acc k => if k ∈ acc then acc else acc ++ [k]) []

/-- `DwellTimeEngine._calculate_sessions`: group events by
(person_id, camera_id) and reconstruct each group's sessions. -/
def calculateSessions (events : List Event) : List SessionData :=
  (groupKeys events).flatMap (fun k =>
    sessionsForGroup k.1 k.2
      (events.filter (fun e => e.person_id = k.1 ∧ e.camera_id = k.2)))

/-- One persisted `PersonSession` row
(`models/camera_events.py`, `person_sessions` table). -/
structure PSRow where
  session_id : String × String × ℤ
  person_id : String
  camera_id : String
  entry_time : ℤ
  exit_time : ℤ
  dwell_duration : ℤ
deriving Repr, DecidableEq

/-- The `if existing:` branch of `_store_sessions`: update the matching
row's `exit_time` and `dwell_duration` in place, leaving `entry_time`, ids
and every other row unchanged. -/
def updateFirst (db : List PSRow) (s : SessionData) : List PSRow :=
  match db with
  | [] => []
  | r :: rs =>
    if r.session_id = s.session_id then
      { r with exit_time := s.exit_time, dwell_duration := s.dwell_duration } :: rs
    else
      r :: updateFirst rs s

/-- One iteration of the `for session_data in sessions` loop of
`_store_sessions`: query for an existing row with this `session_id`; update
it if present, otherwise append a new `PersonSession` row. -/
def upsertOne (db : List PSRow) (s : SessionData) : List PSRow :=
  if db.any (fun r => r.session_id = s.session_id) then
    updateFirst db s
  else
    db ++ [{ session_id := s.session_id, person_id := s.person_id,
             camera_id := s.camera_id, entry_time := s.entry_time,
             exit_time := s.exit_time, dwell_duration := s.dwell_duration }]

/-- `DwellTimeEngine._store_sessions`: upsert each computed session into
the `person_sessions` table, keyed by `session_id`. -/
def storeSessions (db : List PSRow) (sessions : List SessionData) : List PSRow :=
  sessions.foldl upsertOne db

/-- Python's `sorted` on a list of integers (ascending). -/
def pySorted (l : List ℤ) : List ℤ := List.insertionSort (· ≤ ·) l

/-- Python's `max` on a list of integers; only applied to non-empty lists
in the source (the empty default 0 is never reached there). -/
def pyMax : List ℤ → ℤ
  | [] => 0
  | h :: t => t.foldl max h

/-- Python's `min` on a list of integers; only applied to non-empty lists
in the source. -/
def pyMin : List ℤ → ℤ
  | [] => 0
  | h :: t => t.foldl min h

/-- A value of the summary dict returned by `calculate_dwell_times`:
either a number or the `errors` list. -/
inductive DictVal where
  | num (q : ℚ)
  | errs (l : List String)
deriving Repr, DecidableEq

/-- `DwellTimeEngine._calculate_summary_stats`, as the ordered key/value
pairs of the returned dict.  Median is `sorted(dwell_times)[len // 2]`. -/
def summaryStats (sessions : List SessionData) : List (String × DictVal) :=
  if sessions.isEmpty then
    [("sessions_processed", .num 0), ("total_dwell_time", .num 0),
     ("average_dwell_time", .num 0), ("median_dwell_time", .num 0),
     ("max_dwell_time", .num 0), ("min_dwell_time", .num 0)]
  else
    let dwellTimes := sessions.map (·.dwell_duration)
    [("sessions_processed", .num (sessions.length : ℚ)),
     ("total_dwell_time", .num ((dwellTimes.sum : ℤ) : ℚ)),
     ("average_dwell_time", .num (((dwellTimes.sum : ℤ) : ℚ) / (dwellTimes.length : ℚ))),
     ("median_dwell_time", .num (((pySorted dwellTimes).getD (dwellTimes.length / 2) 0 : ℤ) : ℚ)),
     ("max_dwell_time", .num ((pyMax dwellTimes : ℤ) : ℚ)),
     ("min_dwell_time", .num ((pyMin dwellTimes : ℤ) : ℚ))]

/-- `DwellTimeEngine.calculate_dwell_times`: with no events in the window
it returns the three-key dict `{'sessions_processed': 0,
'total_dwell_time': 0, 'errors': []}`; otherwise it reconstructs sessions,
stores them, and returns `_calculate_summary_stats(sessions)`. -/
def calculateDwellTimes (events : List Event) : List (String × DictVal) :=
  if events.isEmpty then
    [("sessions_processed", .num 0), ("total_dwell_time", .num 0),
     ("errors", .errs [])]
  else
    summaryStats (calculateSessions events)

/-- `AnalyticsService.calculate_kpi_metrics`, dwell part: the sessions'
nullable `dwell_duration` columns filtered by Python truthiness
(`if s.dwell_duration` drops both NULL and 0). -/
def kpiDwellList (dwells : List (Option ℤ)) : List ℤ :=
  (dwells.filterMap id).filter (fun d => d ≠ 0)

/-- `median_dwell_time` of `calculate_kpi_metrics`:
`sorted(dwell_times)[len(dwell_times) // 2] if dwell_times else 0`,
and 0 when there are no sessions at all. -/
def kpiMedianDwell (dwells : List (Option ℤ)) : ℤ :=
  if dwells.isEmpty then 0
  else
    let ds := kpiDwellList dwells
    if ds.isEmpty then 0 else (pySorted ds).getD (ds.length / 2) 0

/-- `CSVProcessor.calculate_dwell_time` on one row, timestamps in seconds:
both timestamp columns parse to a time →
`(end_time - start_time).total_seconds()`; a missing or unparseable
timestamp makes the difference NaN, which `fillna(0)` turns into 0.
There is no clamping of negative differences. -/
def calculateDwellTime (started ended : Option ℚ) : ℚ :=
  match started, ended with
  | some s, some e => e - s
  | _, _ => 0

/-- An event row as seen by the foot-traffic queries of
`chart_analytics.py`: the person id, the nullable `gender_outcome`, and
`extract('hour', utc_time_started_readable)`. -/
structure FTEvent where
  person_id : String
  gender : Option String
  hour : ℕ
deriving Repr, DecidableEq

/-- `func.coalesce(CameraEvent.gender_outcome, 'other')`. -/
def genderCoalesce (e : FTEvent) : String := e.gender.getD "other"

/-- One row of the aggregated foot-traffic query: hour, coalesced gender,
`count(distinct person_id)`. -/
structure AggRow where
  hour : ℕ
  gender : String
  unique_count : ℕ
deriving Repr, DecidableEq

/-- The WHERE clauses of the hourly foot-traffic queries:
`extract('hour', ...).between(10, 22)` and
`lower(coalesce(gender_outcome,'other')) in ('male','female')`. -/
def footTrafficFiltered (events : List FTEvent) : List FTEvent :=
  (events.filter (fun e => 10 ≤ e.hour ∧ e.hour ≤ 22)).filter
    (fun e => (genderCoalesce e).toLower = "male" ∨ (genderCoalesce e).toLower = "female")

/-- The distinct `(hour, coalesced gender)` group keys of the filtered
events, in first-occurrence order.  (The query orders rows by hour; row
order is irrelevant to the dense bucket loop below, which scans all rows
for each fixed hour.) -/
def footTrafficKeys (events : List FTEvent) : List (ℕ × String) :=
  (events.map (fun e => (e.hour, genderCoalesce e))).foldl
    (fun acc k => if k ∈ acc then acc else acc ++ [k]) []

/-- The `GROUP BY (hour, gender)` aggregation with
`count(distinct person_id)` per group. -/
def footTrafficRows (events : List FTEvent) : List AggRow :=
  (footTrafficKeys (footTrafficFiltered events)).map (fun k =>
    { hour := k.1, gender := k.2,
      unique_count := (((footTrafficFiltered events).filter
        (fun e => e.hour = k.1 ∧ genderCoalesce e = k.2)).map
          (·.person_id)).eraseDups.length })

/-- One chart point of `get_foot_traffic_data` (hourly view). -/
structure Bucket where
  time_period : String
  male_count : ℕ
  female_count : ℕ
  other_count : ℕ
  total_count : ℕ
deriving Repr, DecidableEq

/-- The fixed `hour_labels` list of the hourly view. -/
def hourLabels : List String :=
  ["10 AM", "11 AM", "12 PM", "1 PM", "2 PM", "3 PM", "4 PM", "5 PM",
   "6 PM", "7 PM", "8 PM", "9 PM", "10 PM"]

/-- The fixed `hours` list `[10, ..., 22]` of the hourly view. -/
def chartHours : List ℕ := [10, 11, 12, 13, 14, 15, 16, 17, 18, 19, 20, 21, 22]

/-- One `for result in results` iteration of `get_foot_traffic_data` for
one fixed hour, on the (male, female, other) counters:
`male_count += ...` for male rows, `female_count = ...` for female rows,
`other_count = ...` otherwise (the comparisons are against the raw grouped
gender, not lowercased). -/
def bucketStep (h : ℕ) (mfo : ℕ × ℕ × ℕ) (r : AggRow) : ℕ × ℕ × ℕ :=
  if r.hour = h then
    if r.gender = "male" then (mfo.1 + r.unique_count, mfo.2.1, mfo.2.2)
    else if r.gender = "female" then (mfo.1, r.unique_count, mfo.2.2)
    else (mfo.1, mfo.2.1, r.unique_count)
  else mfo

/-- The inner `for result in results` scan of `get_foot_traffic_data` for
one fixed hour. -/
def bucketForHour (rows : List AggRow) (label : String) (h : ℕ) : Bucket :=
  let counts := rows.foldl (bucketStep h) (0, 0, 0)
  { time_period := label, male_count := counts.1, female_count := counts.2.1,
    other_count := counts.2.2,
    total_count := counts.1 + counts.2.1 + counts.2.2 }

/-- `get_foot_traffic_data`, hourly view: one chart point per hour of the
fixed `hours` list, built from the aggregated rows. -/
def footTrafficChart (events : List FTEvent) : List Bucket :=
  (hourLabels.zip chartHours).map (fun p =>
    bucketForHour (footTrafficRows events) p.1 p.2)

/-- One data point of `get_foot_traffic_time_series` (hourly view,
breakdown none/gender). -/
structure TSBucket where
  time_period : String
  male_count : ℕ
  female_count : ℕ
  total_count : ℕ
deriving Repr, DecidableEq

/-- One row-scan iteration of `get_foot_traffic_time_series` for one
fixed hour (breakdown none/gender): `male = ...` and `female = ...` for
the matching gender rows (plain assignment for both). -/
def tsBucketStep (h : ℕ) (mf : ℕ × ℕ) (r : AggRow) : ℕ × ℕ :=
  if r.hour = h then
    if r.gender = "male" then (r.unique_count, mf.2)
    else if r.gender = "female" then (mf.1, r.unique_count)
    else mf
  else mf

/-- The inner row scan of `get_foot_traffic_time_series` for one fixed
hour (breakdown none/gender). -/
def tsBucketForHour (rows : List AggRow) (label : String) (h : ℕ) : TSBucket :=
  let mf := rows.foldl (tsBucketStep h) (0, 0)
  { time_period := label, male_count := mf.1, female_count := mf.2,
    total_count := mf.1 + mf.2 }

/-- `get_foot_traffic_time_series`, hourly view with breakdown
none/gender: one data point per hour of the fixed `hours` list. -/
def footTrafficTimeSeriesChart (events : List FTEvent) : List TSBucket :=
  (hourLabels.zip chartHours).map (fun p =>
    tsBucketForHour (footTrafficRows events) p.1 p.2)

/-- Modelled from the spec: the spec's own median definition ("middle
element of the sorted sequence, taking the lower of the two middle
elements when count is even"), for comparison against the code's
`sorted(xs)[len(xs) // 2]`. -/
def medianLowerSpec (l : List ℤ) : ℤ :=
  (pySorted l).getD ((l.length - 1) / 2) 0

/-- The fresh `PersonSession` row created by the `else` branch of
`_store_sessions`. -/
def rowOf (s : SessionData) : PSRow :=
  { session_id := s.session_id, person_id := s.person_id,
    camera_id := s.camera_id, entry_time := s.entry_time,
    exit_time := s.exit_time, dwell_duration := s.dwell_duration }

/-- The `session_id` column of a table state. -/
def idsOf (db : List PSRow) : List (String × String × ℤ) :=
  db.map (·.session_id)

/-- The last computed session with a given `session_id` in a batch
(last-computed-wins). -/
def lastUpd (ss : List SessionData) (k : String × String × ℤ) :
    Option SessionData :=
  (ss.filter (fun s => s.session_id = k)).getLast?

/-- The net effect of a batch of upserts on one already-present row: its
`exit_time` and `dwell_duration` take the values of the last session in
the batch with the same `session_id`; everything else is untouched. -/
def applyLast (ss : List SessionData) (r : PSRow) : PSRow :=
  match lastUpd ss r.session_id with
  | some t => { r with exit_time := t.exit_time, dwell_duration := t.dwell_duration }
  | none => r

/-- The rows appended by a batch of upserts: one row per `session_id` not
yet `seen`, created from the first session carrying that id and then
overwritten by the later ones. -/
def newRows : List SessionData → List (String × String × ℤ) → List PSRow
  | [], _ => []
  | s :: ss, seen =>
    if s.session_id ∈ seen then newRows ss seen
    else applyLast (s :: ss) (rowOf s) :: newRows ss (s.session_id :: seen)

end DwellTimes

namespace DwellTimes

theorem pyInt_eq_floor (d : ℤ) (h : 0 ≤ d) :
    pyInt d = ⌊(d : ℚ) / 1000000⌋ := by
  rw [pyInt, Int.tdiv_eq_ediv h (by norm_num)]
  have h2 := Rat.floor_intCast_div_natCast d 1000000
  push_cast at h2
  rw [h2]

theorem dropEarlyExits_cons_of_not_lt {t : ℤ} {x : Event} {xs : List Event}
    (h : ¬ x.timestamp < t) : dropEarlyExits t (x :: xs) = x :: xs := by
  simp [dropEarlyExits, h]

theorem matchEntriesExits_cons (e : Event) (es xs : List Event) :
    matchEntriesExits (e :: es) xs =
      match dropEarlyExits e.timestamp xs with
      | [] => []
      | x :: xs' =>
        if e.timestamp < x.timestamp then
          (e, x) :: matchEntriesExits es xs'
        else
          matchEntriesExits es (x :: xs') := rfl

theorem matchEntriesExits_cons_nil (e : Event) (es xs : List Event)
    (hd : dropEarlyExits e.timestamp xs = []) :
    matchEntriesExits (e :: es) xs = [] := by
  rw [matchEntriesExits_cons, hd]

theorem matchEntriesExits_cons_cons (e x : Event) (es xs xs' : List Event)
    (hd : dropEarlyExits e.timestamp xs = x :: xs') :
    matchEntriesExits (e :: es) xs =
      if e.timestamp < x.timestamp then
        (e, x) :: matchEntriesExits es xs'
      else
        matchEntriesExits es (x :: xs') := by
  rw [matchEntriesExits_cons, hd]

/-- C1 (corrected): in `_match_entries_exits`, a session is emitted and
both cursors advance only when the entry's timestamp is strictly less than
the exit's; when the two timestamps are exactly equal the final `else`
branch skips the entry (the entry cursor advances, the exit is kept) and
no session is emitted, so an entry is never paired with an exit at exactly
its own timestamp. -/
theorem matchEntriesExits_step_strict_and_equal
    (e x : Event) (es xs : List Event) :
    (e.timestamp < x.timestamp →
      matchEntriesExits (e :: es) (x :: xs) = (e, x) :: matchEntriesExits es xs)
  ∧ (e.timestamp = x.timestamp →
      matchEntriesExits (e :: es) (x :: xs) = matchEntriesExits es (x :: xs)) := by
  constructor
  · intro h
    have hx : ¬ x.timestamp < e.timestamp := not_lt.mpr (le_of_lt h)
    rw [matchEntriesExits_cons_cons e x es (x :: xs) xs
      (dropEarlyExits_cons_of_not_lt hx), if_pos h]
  · intro h
    have hx : ¬ x.timestamp < e.timestamp := by rw [h]; exact lt_irrefl _
    have he : ¬ e.timestamp < x.timestamp := by rw [h]; exact lt_irrefl _
    rw [matchEntriesExits_cons_cons e x es (x :: xs) xs
      (dropEarlyExits_cons_of_not_lt hx), if_neg he]

/-- C1 counterexample: an entry and an exit with exactly equal timestamps
(entry.time ≤ exit.time holds with equality) produce no session at all —
the claimed zero-duration pairing is not emitted. -/
theorem matchEntriesExits_equal_timestamps_not_paired :
    (Event.mk "P" "C" "entry" 5000000).timestamp
      = (Event.mk "P" "C" "exit" 5000000).timestamp
  ∧ matchEntriesExits [Event.mk "P" "C" "entry" 5000000]
      [Event.mk "P" "C" "exit" 5000000] = [] := by
  decide

/-- Witness for `matchEntriesExits_step_strict_and_equal` at concrete
events. -/
theorem matchEntriesExits_step_witness :
    matchEntriesExits [Event.mk "P" "C" "entry" 1000000]
        [Event.mk "P" "C" "exit" 2000000]
      = [(Event.mk "P" "C" "entry" 1000000, Event.mk "P" "C" "exit" 2000000)]
  ∧ matchEntriesExits [Event.mk "P" "C" "entry" 3000000]
        [Event.mk "P" "C" "exit" 3000000]
      = matchEntriesExits [] [Event.mk "P" "C" "exit" 3000000] := by
  constructor
  · have h := (matchEntriesExits_step_strict_and_equal
      (Event.mk "P" "C" "entry" 1000000) (Event.mk "P" "C" "exit" 2000000)
      [] []).1 (by decide)
    rw [h]; rfl
  · exact (matchEntriesExits_step_strict_and_equal
      (Event.mk "P" "C" "entry" 3000000) (Event.mk "P" "C" "exit" 3000000)
      [] []).2 rfl

/-- C4 counterexample: a row whose end timestamp precedes its start
timestamp (start = 10 s, end = 5 s) gets the negative dwell −5 stored,
not 0. -/
theorem calculateDwellTime_negative_counterexample :
    calculateDwellTime (some 10) (some 5) = -5
  ∧ ¬ 0 ≤ calculateDwellTime (some 10) (some 5) := by
  constructor
  · show (5 : ℚ) - 10 = -5
    norm_num
  · show ¬ 0 ≤ (5 : ℚ) - 10
    norm_num

/-- C4 (corrected): the dwell value stored at ingestion is
`ended_at - started_at` whenever both timestamps parse, with no clamping
(so it is negative whenever end < start), and 0 whenever either timestamp
is missing. -/
theorem calculateDwellTime_eq_diff_or_zero (s e : ℚ) :
    calculateDwellTime (some s) (some e) = e - s
  ∧ calculateDwellTime none (some e) = 0
  ∧ calculateDwellTime (some s) none = 0
  ∧ calculateDwellTime none none = 0 :=
  ⟨rfl, rfl, rfl, rfl⟩

/-- C6: for entries at 10:00 and 10:10 and exits at 10:05, 10:12 and 10:20
(microseconds since midnight) for one (person, camera) pair,
reconstruction emits exactly the two sessions (10:00→10:05, 300 s) and
(10:10→10:12, 120 s); the 10:20 exit is dropped. -/
theorem calculateSessions_example_two_sessions :
    calculateSessions
      [Event.mk "P" "C" "entry" 36000000000, Event.mk "P" "C" "exit" 36300000000,
       Event.mk "P" "C" "entry" 36600000000, Event.mk "P" "C" "exit" 36720000000,
       Event.mk "P" "C" "exit" 37200000000]
      = [⟨("P", "C", 36000), "P", "C", 36000000000, 36300000000, 300⟩,
         ⟨("P", "C", 36600), "P", "C", 36600000000, 36720000000, 120⟩] := by
  decide

theorem dropEarlyExits_sublist (t : ℤ) :
    ∀ xs : List Event, (dropEarlyExits t xs).Sublist xs := by
  intro xs
  induction xs with
  | nil => simp [dropEarlyExits]
  | cons x xs ih =>
    by_cases h : x.timestamp < t
    · simp only [dropEarlyExits, if_pos h]
      exact ih.cons x
    · simp only [dropEarlyExits, if_neg h]
      exact List.Sublist.refl _

theorem matchEntriesExits_sublist :
    ∀ (entries exits : List Event),
      ((matchEntriesExits entries exits).map Prod.fst).Sublist entries
    ∧ ((matchEntriesExits entries exits).map Prod.snd).Sublist exits := by
  intro entries
  induction entries with
  | nil =>
    intro exits
    constructor <;> simp [matchEntriesExits]
  | cons e es ih =>
    intro exits
    rcases hd : dropEarlyExits e.timestamp exits with _ | ⟨x, xs'⟩
    · rw [matchEntriesExits_cons_nil e es exits hd]
      constructor <;> simp
    · rw [matchEntriesExits_cons_cons e x es exits xs' hd]
      have hsub : (x :: xs').Sublist exits := by
        rw [← hd]; exact dropEarlyExits_sublist e.timestamp exits
      by_cases h : e.timestamp < x.timestamp
      · rw [if_pos h]
        constructor
        · simpa using (ih xs').1.cons₂ e
        · simpa using ((ih xs').2.cons₂ x).trans hsub
      · rw [if_neg h]
        constructor
        · exact ((ih (x :: xs')).1).cons e
        · exact ((ih (x :: xs')).2).trans hsub

/-- C5: in one matching pass, every entry event is consumed by at most one
emitted pair and every exit event is consumed by at most one emitted pair:
for any event, its multiplicity among the emitted entry (resp. exit)
components never exceeds its multiplicity in the entry (resp. exit)
list. -/
theorem matchEntriesExits_count_le
    (entries exits : List Event) (ev : Event) :
    ((matchEntriesExits entries exits).map Prod.fst).count ev ≤ entries.count ev
  ∧ ((matchEntriesExits entries exits).map Prod.snd).count ev ≤ exits.count ev :=
  ⟨(matchEntriesExits_sublist entries exits).1.count_le ev,
   (matchEntriesExits_sublist entries exits).2.count_le ev⟩

theorem matchEntriesExits_fst_lt_snd :
    ∀ (entries exits : List Event) (p : Event × Event),
      p ∈ matchEntriesExits entries exits → p.1.timestamp < p.2.timestamp := by
  intro entries
  induction entries with
  | nil =>
    intro exits p hp
    simp [matchEntriesExits] at hp
  | cons e es ih =>
    intro exits p hp
    rcases hd : dropEarlyExits e.timestamp exits with _ | ⟨x, xs'⟩
    · rw [matchEntriesExits_cons_nil e es exits hd] at hp
      simp at hp
    · rw [matchEntriesExits_cons_cons e x es exits xs' hd] at hp
      by_cases h : e.timestamp < x.timestamp
      · rw [if_pos h] at hp
        rcases List.mem_cons.mp hp with h1 | h2
        · rw [h1]; exact h
        · exact ih xs' p h2
      · rw [if_neg h] at hp
        exact ih (x :: xs') p hp

/-- C2: every session emitted by reconstruction has `exit_time ≥
entry_time`, and its stored dwell is exactly the floor of
`exit_time - entry_time` in whole seconds (1 s = 10^6 µs), hence never
negative. -/
theorem calculateSessions_exit_ge_entry_dwell_floor
    (events : List Event) (s : SessionData) (hs : s ∈ calculateSessions events) :
    s.entry_time ≤ s.exit_time
  ∧ s.dwell_duration = ⌊((s.exit_time - s.entry_time : ℤ) : ℚ) / 1000000⌋
  ∧ 0 ≤ s.dwell_duration := by
  rcases List.mem_flatMap.mp hs with ⟨k, hk, hsg⟩
  simp only [sessionsForGroup] at hsg
  rcases List.mem_map.mp hsg with ⟨pr, hpr, hmk⟩
  have hlt := matchEntriesExits_fst_lt_snd _ _ pr hpr
  subst hmk
  have hle : (0 : ℤ) ≤ pr.2.timestamp - pr.1.timestamp := by
    simp only [sub_nonneg]
    exact hlt.le
  refine ⟨hlt.le, ?_, ?_⟩
  · show pyInt (pr.2.timestamp - pr.1.timestamp) = _
    exact pyInt_eq_floor _ hle
  · show 0 ≤ pyInt (pr.2.timestamp - pr.1.timestamp)
    rw [pyInt_eq_floor _ hle]
    apply Int.floor_nonneg.mpr
    positivity

/-- Witness for `calculateSessions_exit_ge_entry_dwell_floor` at a
concrete event list. -/
theorem calculateSessions_exit_ge_entry_dwell_floor_witness :
    (⟨("P", "C", 36000), "P", "C", 36000000000, 36300000000, 300⟩ : SessionData).entry_time
      ≤ (⟨("P", "C", 36000), "P", "C", 36000000000, 36300000000, 300⟩ : SessionData).exit_time
  ∧ (⟨("P", "C", 36000), "P", "C", 36000000000, 36300000000, 300⟩ : SessionData).dwell_duration
      = ⌊(((⟨("P", "C", 36000), "P", "C", 36000000000, 36300000000, 300⟩ : SessionData).exit_time
          - (⟨("P", "C", 36000), "P", "C", 36000000000, 36300000000, 300⟩ : SessionData).entry_time : ℤ) : ℚ) / 1000000⌋
  ∧ 0 ≤ (⟨("P", "C", 36000), "P", "C", 36000000000, 36300000000, 300⟩ : SessionData).dwell_duration :=
  calculateSessions_exit_ge_entry_dwell_floor
    [Event.mk "P" "C" "entry" 36000000000, Event.mk "P" "C" "exit" 36300000000]
    ⟨("P", "C", 36000), "P", "C", 36000000000, 36300000000, 300⟩
    (by decide)

/-- C3 counterexample: for the four dwell values [30, 0, 20, 10] the
summary median is 20, the upper of the two middle elements of
[0, 10, 20, 30], while the spec's lower-middle median is 10; likewise the
KPI median of [40, 10, 30, 20] is 30 where the spec says 20. -/
theorem median_upper_middle_counterexample :
    List.lookup "median_dwell_time"
      (summaryStats
        [⟨("p", "c", 0), "p", "c", 0, 0, 30⟩, ⟨("p", "c", 0), "p", "c", 0, 0, 0⟩,
         ⟨("p", "c", 0), "p", "c", 0, 0, 20⟩, ⟨("p", "c", 0), "p", "c", 0, 0, 10⟩])
      = some (DictVal.num 20)
  ∧ medianLowerSpec [30, 0, 20, 10] = 10
  ∧ (20 : ℚ) ≠ (10 : ℚ)
  ∧ kpiMedianDwell [some 40, some 10, some 30, some 20] = 30
  ∧ medianLowerSpec [40, 10, 30, 20] = 20 := by
  refine ⟨by decide, by decide, by norm_num, by decide, by decide⟩

theorem summaryStats_median (sessions : List SessionData)
    (h : sessions ≠ []) :
    List.lookup "median_dwell_time" (summaryStats sessions)
      = some (.num (((pySorted (sessions.map (·.dwell_duration))).getD
          (sessions.length / 2) 0 : ℤ) : ℚ)) := by
  cases sessions with
  | nil => exact absurd rfl h
  | cons a l =>
    show List.lookup "median_dwell_time"
        (summaryStats (a :: l)) = _
    simp only [summaryStats, List.isEmpty_cons, Bool.false_eq_true, if_false,
      List.length_map]
    rfl

/-- C3 (corrected): for every non-empty collection of dwell values, both
the reconstruction summary median and the KPI median are the element at
index ⌊count/2⌋ of the sorted sequence — the middle element for odd
counts and the UPPER of the two middle elements for even counts (no
averaging); for the KPI metrics the collection is the truthiness-filtered
dwell list. -/
theorem median_is_sorted_middle_upper
    (sessions : List SessionData) (dwells : List (Option ℤ))
    (h1 : sessions ≠ []) (h2 : kpiDwellList dwells ≠ []) :
    (∃ l : List ℤ, List.Sorted (· ≤ ·) l
      ∧ l.Perm (sessions.map (·.dwell_duration))
      ∧ List.lookup "median_dwell_time" (summaryStats sessions)
          = some (.num ((l.getD (sessions.length / 2) 0 : ℤ) : ℚ)))
  ∧ (∃ l : List ℤ, List.Sorted (· ≤ ·) l
      ∧ l.Perm (kpiDwellList dwells)
      ∧ kpiMedianDwell dwells = l.getD ((kpiDwellList dwells).length / 2) 0) := by
  constructor
  · refine ⟨pySorted (sessions.map (·.dwell_duration)), ?_, ?_, ?_⟩
    · exact List.sorted_insertionSort _ _
    · exact List.perm_insertionSort _ _
    · exact summaryStats_median sessions h1
  · refine ⟨pySorted (kpiDwellList dwells), ?_, ?_, ?_⟩
    · exact List.sorted_insertionSort _ _
    · exact List.perm_insertionSort _ _
    · have hdne : dwells ≠ [] := by
        intro hnil
        rw [hnil] at h2
        exact h2 rfl
      have hd : dwells.isEmpty = false := by
        cases dwells
        · exact absurd rfl hdne
        · rfl
      have hds : (kpiDwellList dwells).isEmpty = false := by
        cases hk : kpiDwellList dwells
        · exact absurd hk h2
        · rfl
      simp only [kpiMedianDwell, hd, hds, Bool.false_eq_true, if_false]

/-- Witness for `median_is_sorted_middle_upper` at concrete inputs. -/
theorem median_is_sorted_middle_upper_witness :
    (∃ l : List ℤ, List.Sorted (· ≤ ·) l
      ∧ l.Perm (([⟨("p", "c", 0), "p", "c", 0, 0, 7⟩] : List SessionData).map
          (·.dwell_duration))
      ∧ List.lookup "median_dwell_time"
            (summaryStats [⟨("p", "c", 0), "p", "c", 0, 0, 7⟩])
          = some (.num ((l.getD
              (([⟨("p", "c", 0), "p", "c", 0, 0, 7⟩] : List SessionData).length / 2)
              0 : ℤ) : ℚ)))
  ∧ (∃ l : List ℤ, List.Sorted (· ≤ ·) l
      ∧ l.Perm (kpiDwellList [some 7])
      ∧ kpiMedianDwell [some 7]
          = l.getD ((kpiDwellList [some 7]).length / 2) 0) :=
  median_is_sorted_middle_upper
    [⟨("p", "c", 0), "p", "c", 0, 0, 7⟩] [some 7] (by decide) (by decide)

/-- C9: with zero events in the window `calculate_dwell_times` returns
exactly the three-key dict `{'sessions_processed': 0,
'total_dwell_time': 0, 'errors': []}`, while whenever at least one
session is produced the returned summary carries exactly the six
statistic keys, in order, and no `errors` key. -/
theorem calculateDwellTimes_result_shape :
    calculateDwellTimes []
      = [("sessions_processed", .num 0), ("total_dwell_time", .num 0),
         ("errors", .errs [])]
  ∧ ∀ events : List Event, calculateSessions events ≠ [] →
      (calculateDwellTimes events).map Prod.fst
        = ["sessions_processed", "total_dwell_time", "average_dwell_time",
           "median_dwell_time", "max_dwell_time", "min_dwell_time"] := by
  constructor
  · rfl
  · intro events h
    have hev : events ≠ [] := by
      intro he
      rw [he] at h
      exact h rfl
    have hevE : events.isEmpty = false := by
      cases events
      · exact absurd rfl hev
      · rfl
    have hsE : (calculateSessions events).isEmpty = false := by
      cases hc : calculateSessions events
      · exact absurd hc h
      · rfl
    simp only [calculateDwellTimes, hevE, Bool.false_eq_true, if_false,
      summaryStats, hsE]
    rfl

/-- Witness for `calculateDwellTimes_result_shape` at a concrete event
list. -/
theorem calculateDwellTimes_result_shape_witness :
    (calculateDwellTimes [Event.mk "P" "C" "entry" 36000000000,
        Event.mk "P" "C" "exit" 36300000000]).map Prod.fst
      = ["sessions_processed", "total_dwell_time", "average_dwell_time",
         "median_dwell_time", "max_dwell_time", "min_dwell_time"] :=
  calculateDwellTimes_result_shape.2
    [Event.mk "P" "C" "entry" 36000000000, Event.mk "P" "C" "exit" 36300000000]
    (by decide)

/-- C10: the session id embeds the entry time at whole-second precision
only, so two sessions computed for the same (person, camera) whose entry
times fall in the same calendar second get the same session id; storing
both persists a single `PersonSession` row whose `exit_time` and
`dwell_duration` come from the later computation (while `entry_time`
stays that of the first). -/
theorem sessionId_second_collision_overwrites
    (p c : String) (en1 ex1 en2 ex2 : Event)
    (h : strftimeSecond en1.timestamp = strftimeSecond en2.timestamp) :
    (mkSessionData p c en1 ex1).session_id = (mkSessionData p c en2 ex2).session_id
  ∧ storeSessions [] [mkSessionData p c en1 ex1, mkSessionData p c en2 ex2]
      = [{ session_id := (p, c, strftimeSecond en1.timestamp),
           person_id := p, camera_id := c,
           entry_time := en1.timestamp, exit_time := ex2.timestamp,
           dwell_duration := pyInt (ex2.timestamp - en2.timestamp) }] := by
  constructor
  · simp [mkSessionData, h]
  · show upsertOne (upsertOne [] (mkSessionData p c en1 ex1))
      (mkSessionData p c en2 ex2) = _
    have h1 : upsertOne [] (mkSessionData p c en1 ex1)
        = [rowOf (mkSessionData p c en1 ex1)] := rfl
    rw [h1]
    have hid : (rowOf (mkSessionData p c en1 ex1)).session_id
        = (mkSessionData p c en2 ex2).session_id := by
      simp [rowOf, mkSessionData, h]
    rw [upsertOne, if_pos (by simp [hid])]
    rw [updateFirst, if_pos hid]
    simp [rowOf, mkSessionData]

/-- Witness for `sessionId_second_collision_overwrites` at two entry
times 5.0 s and 5.5 s (same calendar second). -/
theorem sessionId_second_collision_witness :
    (mkSessionData "P" "C" (Event.mk "P" "C" "entry" 5000000)
        (Event.mk "P" "C" "exit" 6000000)).session_id
      = (mkSessionData "P" "C" (Event.mk "P" "C" "entry" 5500000)
          (Event.mk "P" "C" "exit" 7000000)).session_id
  ∧ storeSessions []
      [mkSessionData "P" "C" (Event.mk "P" "C" "entry" 5000000)
         (Event.mk "P" "C" "exit" 6000000),
       mkSessionData "P" "C" (Event.mk "P" "C" "entry" 5500000)
         (Event.mk "P" "C" "exit" 7000000)]
      = [{ session_id := ("P", "C",
             strftimeSecond (Event.mk "P" "C" "entry" 5000000).timestamp),
           person_id := "P", camera_id := "C",
           entry_time := (Event.mk "P" "C" "entry" 5000000).timestamp,
           exit_time := (Event.mk "P" "C" "exit" 7000000).timestamp,
           dwell_duration := pyInt ((Event.mk "P" "C" "exit" 7000000).timestamp
             - (Event.mk "P" "C" "entry" 5500000).timestamp) }] :=
  sessionId_second_collision_overwrites "P" "C"
    (Event.mk "P" "C" "entry" 5000000) (Event.mk "P" "C" "exit" 6000000)
    (Event.mk "P" "C" "entry" 5500000) (Event.mk "P" "C" "exit" 7000000)
    (by decide)

theorem foldl_bucketStep_id (h : ℕ) :
    ∀ (rows : List AggRow), (∀ r ∈ rows, r.hour ≠ h) →
      ∀ init : ℕ × ℕ × ℕ, rows.foldl (bucketStep h) init = init := by
  intro rows
  induction rows with
  | nil => intro _ init; rfl
  | cons r rs ih =>
    intro hr init
    have h1 : bucketStep h init r = init := by
      simp [bucketStep, hr r (List.mem_cons_self r rs)]
    rw [List.foldl_cons, h1]
    exact ih (fun t ht => hr t (List.mem_cons_of_mem r ht)) init

theorem foldl_tsBucketStep_id (h : ℕ) :
    ∀ (rows : List AggRow), (∀ r ∈ rows, r.hour ≠ h) →
      ∀ init : ℕ × ℕ, rows.foldl (tsBucketStep h) init = init := by
  intro rows
  induction rows with
  | nil => intro _ init; rfl
  | cons r rs ih =>
    intro hr init
    have h1 : tsBucketStep h init r = init := by
      simp [tsBucketStep, hr r (List.mem_cons_self r rs)]
    rw [List.foldl_cons, h1]
    exact ih (fun t ht => hr t (List.mem_cons_of_mem r ht)) init

theorem bucketForHour_of_no_hour (rows : List AggRow) (label : String)
    (h : ℕ) (hr : ∀ r ∈ rows, r.hour ≠ h) :
    bucketForHour rows label h = ⟨label, 0, 0, 0, 0⟩ := by
  unfold bucketForHour
  rw [foldl_bucketStep_id h rows hr (0, 0, 0)]
  rfl

theorem tsBucketForHour_of_no_hour (rows : List AggRow) (label : String)
    (h : ℕ) (hr : ∀ r ∈ rows, r.hour ≠ h) :
    tsBucketForHour rows label h = ⟨label, 0, 0, 0⟩ := by
  unfold tsBucketForHour
  rw [foldl_tsBucketStep_id h rows hr (0, 0)]
  rfl

theorem mem_foldl_dedup :
    ∀ (l acc : List (ℕ × String)) (x : ℕ × String),
      x ∈ l.foldl (fun acc k => if k ∈ acc then acc else acc ++ [k]) acc →
      x ∈ acc ∨ x ∈ l := by
  intro l
  induction l with
  | nil =>
    intro acc x hx
    exact Or.inl hx
  | cons k l ih =>
    intro acc x hx
    rw [List.foldl_cons] at hx
    rcases ih _ x hx with h1 | h1
    · by_cases hk : k ∈ acc
      · rw [if_pos hk] at h1
        exact Or.inl h1
      · rw [if_neg hk] at h1
        rcases List.mem_append.mp h1 with h2 | h2
        · exact Or.inl h2
        · simp only [List.mem_singleton] at h2
          subst h2
          exact Or.inr (List.mem_cons_self _ _)
    · exact Or.inr (List.mem_cons_of_mem _ h1)

theorem mem_footTrafficKeys (l : List FTEvent) (k : ℕ × String)
    (hk : k ∈ footTrafficKeys l) : ∃ e ∈ l, e.hour = k.1 := by
  unfold footTrafficKeys at hk
  rcases mem_foldl_dedup (l.map (fun e => (e.hour, genderCoalesce e))) [] k hk
    with h | h
  · simp at h
  · rcases List.mem_map.mp h with ⟨e, he, hek⟩
    exact ⟨e, he, by rw [← hek]⟩

theorem footTrafficRows_hour_ne (events : List FTEvent) (hh : ℕ)
    (h : ∀ e ∈ events, e.hour ≠ hh) :
    ∀ r ∈ footTrafficRows events, r.hour ≠ hh := by
  intro r hr
  unfold footTrafficRows at hr
  rcases List.mem_map.mp hr with ⟨k, hk, hrk⟩
  rcases mem_footTrafficKeys _ k hk with ⟨e, he, heh⟩
  have he' : e ∈ events := by
    unfold footTrafficFiltered at he
    exact List.mem_of_mem_filter (List.mem_of_mem_filter he)
  rw [← hrk]
  show k.1 ≠ hh
  rw [← heh]
  exact h e he'

theorem footTrafficFiltered_filter_range (events : List FTEvent) :
    footTrafficFiltered (events.filter (fun e => 10 ≤ e.hour ∧ e.hour ≤ 22))
      = footTrafficFiltered events := by
  unfold footTrafficFiltered
  congr 1
  rw [List.filter_filter]
  congr 1
  funext a
  exact Bool.and_self _

theorem footTrafficRows_filter_range (events : List FTEvent) :
    footTrafficRows (events.filter (fun e => 10 ≤ e.hour ∧ e.hour ≤ 22))
      = footTrafficRows events := by
  unfold footTrafficRows
  rw [footTrafficFiltered_filter_range]

/-- C8: both hourly foot-traffic endpoints return exactly 13 buckets, one
per hour 10–22 in the fixed label order, for any input; restricting the
input to events whose hour lies in 10–22 changes nothing (out-of-range
events are excluded entirely); and an hour with no events yields a bucket
with all-zero counts. -/
theorem footTraffic_dense_13_buckets (events : List FTEvent) :
    (footTrafficChart events).length = 13
  ∧ (footTrafficChart events).map Bucket.time_period = hourLabels
  ∧ footTrafficChart (events.filter (fun e => 10 ≤ e.hour ∧ e.hour ≤ 22))
      = footTrafficChart events
  ∧ (∀ i : ℕ, i < 13 → (∀ e ∈ events, e.hour ≠ 10 + i) →
      (footTrafficChart events).getD i ⟨"", 0, 0, 0, 0⟩
        = ⟨hourLabels.getD i "", 0, 0, 0, 0⟩)
  ∧ (footTrafficTimeSeriesChart events).length = 13
  ∧ (footTrafficTimeSeriesChart events).map TSBucket.time_period = hourLabels
  ∧ footTrafficTimeSeriesChart (events.filter (fun e => 10 ≤ e.hour ∧ e.hour ≤ 22))
      = footTrafficTimeSeriesChart events
  ∧ (∀ i : ℕ, i < 13 → (∀ e ∈ events, e.hour ≠ 10 + i) →
      (footTrafficTimeSeriesChart events).getD i ⟨"", 0, 0, 0⟩
        = ⟨hourLabels.getD i "", 0, 0, 0⟩) := by
  refine ⟨?_, ?_, ?_, ?_, ?_, ?_, ?_, ?_⟩
  · rw [footTrafficChart, List.length_map]
    rfl
  · rfl
  · simp only [footTrafficChart, footTrafficRows_filter_range]
  · intro i hi he
    interval_cases i <;>
      exact bucketForHour_of_no_hour _ _ _ (footTrafficRows_hour_ne events _ he)
  · rw [footTrafficTimeSeriesChart, List.length_map]
    rfl
  · rfl
  · simp only [footTrafficTimeSeriesChart, footTrafficRows_filter_range]
  · intro i hi he
    interval_cases i <;>
      exact tsBucketForHour_of_no_hour _ _ _ (footTrafficRows_hour_ne events _ he)

/-- Witness for `footTraffic_dense_13_buckets` at a concrete one-event
input with hour 11 (so hour 10 has no data). -/
theorem footTraffic_dense_13_buckets_witness :
    (footTrafficChart [⟨"alice", some "male", 11⟩]).length = 13
  ∧ (footTrafficChart [⟨"alice", some "male", 11⟩]).getD 0 ⟨"", 0, 0, 0, 0⟩
      = ⟨hourLabels.getD 0 "", 0, 0, 0, 0⟩
  ∧ (footTrafficTimeSeriesChart [⟨"alice", some "male", 11⟩]).getD 0 ⟨"", 0, 0, 0⟩
      = ⟨hourLabels.getD 0 "", 0, 0, 0⟩ := by
  have h := footTraffic_dense_13_buckets [⟨"alice", some "male", 11⟩]
  exact ⟨h.1, h.2.2.2.1 0 (by decide) (by decide),
    h.2.2.2.2.2.2.2 0 (by decide) (by decide)⟩

theorem applyLast_nil (r : PSRow) : applyLast [] r = r := rfl

theorem applyLast_session_id (ss : List SessionData) (r : PSRow) :
    (applyLast ss r).session_id = r.session_id := by
  unfold applyLast
  cases h : lastUpd ss r.session_id <;> rfl

theorem applyLast_cons_ne (s : SessionData) (ss : List SessionData) (r : PSRow)
    (h : r.session_id ≠ s.session_id) :
    applyLast (s :: ss) r = applyLast ss r := by
  have h' : ¬ s.session_id = r.session_id := fun hh => h hh.symm
  simp [applyLast, lastUpd, List.filter_cons, h']

theorem applyLast_cons_update (s : SessionData) (ss : List SessionData)
    (r : PSRow) (hid : r.session_id = s.session_id) :
    applyLast ss
      { r with exit_time := s.exit_time, dwell_duration := s.dwell_duration }
      = applyLast (s :: ss) r := by
  unfold applyLast lastUpd
  have hs : decide (s.session_id = r.session_id) = true := by simp [hid]
  rw [List.filter_cons, hs]
  cases hflt : ss.filter (fun t => t.session_id = r.session_id) with
  | nil =>
    rw [if_pos rfl]
    rfl
  | cons t ts =>
    rw [if_pos rfl, List.getLast?_cons_cons]
    cases hgl : (t :: ts).getLast? with
    | none => simp at hgl
    | some u => rfl

theorem applyLast_idem (ss : List SessionData) (r : PSRow) :
    applyLast ss (applyLast ss r) = applyLast ss r := by
  cases h : lastUpd ss r.session_id with
  | none =>
    have h1 : applyLast ss r = r := by
      unfold applyLast
      rw [h]
    rw [h1]
    exact h1
  | some t =>
    have h1 : applyLast ss r
        = { r with exit_time := t.exit_time, dwell_duration := t.dwell_duration } := by
      unfold applyLast
      rw [h]
    rw [h1]
    have h2 : lastUpd ss (PSRow.session_id
        { r with exit_time := t.exit_time, dwell_duration := t.dwell_duration })
        = some t := h
    unfold applyLast
    rw [h2]

theorem updateFirst_nil (s : SessionData) : updateFirst [] s = [] := rfl

theorem updateFirst_cons (r : PSRow) (rs : List PSRow) (s : SessionData) :
    updateFirst (r :: rs) s =
      if r.session_id = s.session_id then
        { r with exit_time := s.exit_time, dwell_duration := s.dwell_duration } :: rs
      else
        r :: updateFirst rs s := rfl

theorem idsOf_updateFirst (s : SessionData) :
    ∀ db : List PSRow, idsOf (updateFirst db s) = idsOf db := by
  intro db
  induction db with
  | nil => rfl
  | cons r rs ih =>
    by_cases h : r.session_id = s.session_id
    · rw [updateFirst_cons, if_pos h]
      rfl
    · rw [updateFirst_cons, if_neg h]
      show _ :: idsOf (updateFirst rs s) = _ :: idsOf rs
      rw [ih]

theorem any_sid_eq (db : List PSRow) (k : String × String × ℤ) :
    db.any (fun r => r.session_id = k) = true ↔ k ∈ idsOf db := by
  simp only [List.any_eq_true, decide_eq_true_eq, idsOf, List.mem_map]

theorem upsertOne_of_mem (db : List PSRow) (s : SessionData)
    (h : s.session_id ∈ idsOf db) :
    upsertOne db s = updateFirst db s := by
  unfold upsertOne
  rw [if_pos ((any_sid_eq db s.session_id).mpr h)]

theorem upsertOne_of_not_mem (db : List PSRow) (s : SessionData)
    (h : s.session_id ∉ idsOf db) :
    upsertOne db s = db ++ [rowOf s] := by
  unfold upsertOne
  rw [if_neg (fun hc => h ((any_sid_eq db s.session_id).mp hc))]
  rfl

theorem newRows_cons (s : SessionData) (ss : List SessionData)
    (seen : List (String × String × ℤ)) :
    newRows (s :: ss) seen =
      if s.session_id ∈ seen then newRows ss seen
      else applyLast (s :: ss) (rowOf s) :: newRows ss (s.session_id :: seen) :=
  rfl

theorem newRows_congr :
    ∀ (ss : List SessionData) (s1 s2 : List (String × String × ℤ)),
      (∀ k, k ∈ s1 ↔ k ∈ s2) → newRows ss s1 = newRows ss s2 := by
  intro ss
  induction ss with
  | nil => intros; rfl
  | cons s ss ih =>
    intro s1 s2 h
    by_cases hm : s.session_id ∈ s1
    · rw [newRows_cons, newRows_cons, if_pos hm, if_pos ((h _).mp hm)]
      exact ih _ _ h
    · rw [newRows_cons, newRows_cons, if_neg hm,
        if_neg (fun hx => hm ((h _).mpr hx))]
      congr 1
      exact ih _ _ (fun k => by rw [List.mem_cons, List.mem_cons, h k])

theorem updateFirst_map_applyLast (s : SessionData) (ss' : List SessionData) :
    ∀ db : List PSRow, (idsOf db).Nodup → s.session_id ∈ idsOf db →
      (updateFirst db s).map (applyLast ss') = db.map (applyLast (s :: ss')) := by
  intro db
  induction db with
  | nil =>
    intro _ h
    simp [idsOf] at h
  | cons r rs ih =>
    intro hnd hmem
    have hnc := List.nodup_cons.mp hnd
    by_cases hr : r.session_id = s.session_id
    · rw [updateFirst_cons, if_pos hr]
      simp only [List.map_cons]
      congr 1
      · exact applyLast_cons_update s ss' r hr
      · apply List.map_congr_left
        intro a ha
        refine (applyLast_cons_ne s ss' a ?_).symm
        intro hc
        apply hnc.1
        show r.session_id ∈ List.map (fun x => x.session_id) rs
        rw [show r.session_id = a.session_id from hr.trans hc.symm]
        exact List.mem_map.mpr ⟨a, ha, rfl⟩
    · rw [updateFirst_cons, if_neg hr]
      simp only [List.map_cons]
      congr 1
      · exact (applyLast_cons_ne s ss' r hr).symm
      · apply ih hnc.2
        rcases List.mem_cons.mp hmem with h1 | h1
        · exact absurd h1.symm hr
        · exact h1

theorem storeSessions_characterization :
    ∀ (ss : List SessionData) (db : List PSRow), (idsOf db).Nodup →
      storeSessions db ss = db.map (applyLast ss) ++ newRows ss (idsOf db) := by
  intro ss
  induction ss with
  | nil =>
    intro db _
    show db = _
    rw [show newRows [] (idsOf db) = [] from rfl, List.append_nil]
    rw [show db.map (applyLast []) = db.map id from
      List.map_congr_left (fun r _ => applyLast_nil r), List.map_id]
  | cons s ss' ih =>
    intro db hnd
    show storeSessions (upsertOne db s) ss' = _
    by_cases hmem : s.session_id ∈ idsOf db
    · rw [upsertOne_of_mem db s hmem]
      rw [ih (updateFirst db s) (by rw [idsOf_updateFirst]; exact hnd)]
      rw [idsOf_updateFirst]
      rw [updateFirst_map_applyLast s ss' db hnd hmem]
      rw [newRows_cons, if_pos hmem]
    · rw [upsertOne_of_not_mem db s hmem]
      have hids : idsOf (db ++ [rowOf s]) = idsOf db ++ [s.session_id] := by
        simp [idsOf, rowOf]
      have hnd2 : (idsOf (db ++ [rowOf s])).Nodup := by
        rw [hids]
        refine List.Nodup.append hnd (List.nodup_singleton _) ?_
        intro a ha hb
        rw [List.mem_singleton] at hb
        subst hb
        exact hmem ha
      rw [ih (db ++ [rowOf s]) hnd2, hids]
      rw [List.map_append]
      rw [newRows_cons, if_neg hmem]
      rw [show (([rowOf s] : List PSRow).map (applyLast ss'))
        = [applyLast ss' (rowOf s)] from rfl]
      rw [show applyLast ss' (rowOf s) = applyLast (s :: ss') (rowOf s) from
        applyLast_cons_update s ss' (rowOf s) rfl]
      rw [show db.map (applyLast ss') = db.map (applyLast (s :: ss')) from
        List.map_congr_left (fun r hr => (applyLast_cons_ne s ss' r
          (fun hh => hmem (hh ▸ List.mem_map.mpr ⟨r, hr, rfl⟩))).symm)]
      rw [newRows_congr ss' (idsOf db ++ [s.session_id])
        (s.session_id :: idsOf db)
        (fun k => by rw [List.mem_append, List.mem_singleton, List.mem_cons,
          Or.comm])]
      rw [List.append_assoc]
      rfl

theorem newRows_sid_not_seen :
    ∀ (ss : List SessionData) (seen : List (String × String × ℤ)) (r : PSRow),
      r ∈ newRows ss seen → r.session_id ∉ seen := by
  intro ss
  induction ss with
  | nil =>
    intro seen r hr
    simp [newRows] at hr
  | cons s ss ih =>
    intro seen r hr
    rw [newRows_cons] at hr
    by_cases hm : s.session_id ∈ seen
    · rw [if_pos hm] at hr
      exact ih seen r hr
    · rw [if_neg hm] at hr
      rcases List.mem_cons.mp hr with h1 | h1
      · intro hcon
        apply hm
        have h2 : r.session_id = s.session_id := by
          rw [h1, applyLast_session_id]
          rfl
        rwa [h2] at hcon
      · have h2 := ih _ r h1
        intro hc
        exact h2 (List.mem_cons_of_mem _ hc)

theorem newRows_ids_nodup :
    ∀ (ss : List SessionData) (seen : List (String × String × ℤ)),
      (idsOf (newRows ss seen)).Nodup := by
  intro ss
  induction ss with
  | nil =>
    intro seen
    simp [newRows, idsOf]
  | cons s ss ih =>
    intro seen
    rw [newRows_cons]
    by_cases hm : s.session_id ∈ seen
    · rw [if_pos hm]
      exact ih seen
    · rw [if_neg hm]
      rw [show idsOf (applyLast (s :: ss) (rowOf s)
            :: newRows ss (s.session_id :: seen))
          = (applyLast (s :: ss) (rowOf s)).session_id
            :: idsOf (newRows ss (s.session_id :: seen)) from rfl]
      refine List.nodup_cons.mpr ⟨?_, ih _⟩
      intro hc
      rcases List.mem_map.mp hc with ⟨r, hr, hrs⟩
      have h1 : r.session_id ∉ s.session_id :: seen :=
        newRows_sid_not_seen ss _ r hr
      apply h1
      rw [show r.session_id = s.session_id from by
        rw [hrs, applyLast_session_id]; rfl]
      exact List.mem_cons_self _ _

theorem ssIds_subset :
    ∀ (ss : List SessionData) (seen : List (String × String × ℤ))
      (s : SessionData), s ∈ ss →
      s.session_id ∈ seen ∨ s.session_id ∈ idsOf (newRows ss seen) := by
  intro ss
  induction ss with
  | nil =>
    intro seen s hs
    simp at hs
  | cons s0 ss ih =>
    intro seen s hs
    rw [newRows_cons]
    have hhead : (applyLast (s0 :: ss) (rowOf s0)).session_id = s0.session_id := by
      rw [applyLast_session_id]
      rfl
    by_cases hm : s0.session_id ∈ seen
    · rw [if_pos hm]
      rcases List.mem_cons.mp hs with h1 | h1
      · rw [h1]
        exact Or.inl hm
      · exact ih seen s h1
    · rw [if_neg hm]
      rcases List.mem_cons.mp hs with h1 | h1
      · right
        rw [h1]
        exact List.mem_map.mpr ⟨_, List.mem_cons_self _ _, hhead⟩
      · rcases ih (s0.session_id :: seen) s h1 with h2 | h2
        · rcases List.mem_cons.mp h2 with h3 | h3
          · right
            rw [h3]
            exact List.mem_map.mpr ⟨_, List.mem_cons_self _ _, hhead⟩
          · exact Or.inl h3
        · right
          rcases List.mem_map.mp h2 with ⟨r, hr, hrs⟩
          exact List.mem_map.mpr ⟨r, List.mem_cons_of_mem _ hr, hrs⟩

theorem newRows_nil_of_all_seen :
    ∀ (ss : List SessionData) (seen : List (String × String × ℤ)),
      (∀ s ∈ ss, s.session_id ∈ seen) → newRows ss seen = [] := by
  intro ss
  induction ss with
  | nil => intros; rfl
  | cons s ss ih =>
    intro seen h
    rw [newRows_cons, if_pos (h s (List.mem_cons_self _ _))]
    exact ih seen (fun t ht => h t (List.mem_cons_of_mem _ ht))

theorem newRows_applyLast_fixed :
    ∀ (ss : List SessionData) (seen : List (String × String × ℤ)) (r : PSRow),
      r ∈ newRows ss seen → applyLast ss r = r := by
  intro ss
  induction ss with
  | nil =>
    intro seen r h
    simp [newRows] at h
  | cons s ss ih =>
    intro seen r hr
    rw [newRows_cons] at hr
    by_cases hm : s.session_id ∈ seen
    · rw [if_pos hm] at hr
      have h1 := ih seen r hr
      have h2 : r.session_id ≠ s.session_id := by
        intro hc
        exact (newRows_sid_not_seen ss seen r hr) (hc ▸ hm)
      rw [applyLast_cons_ne s ss r h2, h1]
    · rw [if_neg hm] at hr
      rcases List.mem_cons.mp hr with h1 | h1
      · rw [h1]
        exact applyLast_idem (s :: ss) (rowOf s)
      · have h2 := ih _ r h1
        have h3 : r.session_id ∉ s.session_id :: seen :=
          newRows_sid_not_seen ss _ r h1
        have h4 : r.session_id ≠ s.session_id :=
          fun hc => h3 (hc ▸ List.mem_cons_self _ _)
        rw [applyLast_cons_ne s ss r h4, h2]

theorem idsOf_storeSessions (ss : List SessionData) (db : List PSRow)
    (hnd : (idsOf db).Nodup) :
    idsOf (storeSessions db ss) = idsOf db ++ idsOf (newRows ss (idsOf db)) := by
  rw [storeSessions_characterization ss db hnd]
  unfold idsOf
  rw [List.map_append, List.map_map]
  congr 1
  apply List.map_congr_left
  intro r _
  exact applyLast_session_id ss r

theorem idsOf_storeSessions_nodup (ss : List SessionData) (db : List PSRow)
    (hnd : (idsOf db).Nodup) :
    (idsOf (storeSessions db ss)).Nodup := by
  rw [idsOf_storeSessions ss db hnd]
  refine List.Nodup.append hnd (newRows_ids_nodup ss (idsOf db)) ?_
  intro a ha hb
  rcases List.mem_map.mp hb with ⟨r, hr, hrs⟩
  exact (newRows_sid_not_seen ss (idsOf db) r hr) (by rw [hrs]; exact ha)

/-- C7: re-running reconstruction (store pass) over the identical input
leaves the persisted table unchanged; a table whose `session_id` column
was unique stays unique (no duplicate Session row is ever created); and
storing a session whose key already exists only overwrites that row's
`exit_time`/`dwell_duration` (every row keeps its identity and the row
count is unchanged). -/
theorem storeSessions_idempotent_nodup_overwrite
    (db : List PSRow) (events : List Event) (s : SessionData)
    (hnd : (idsOf db).Nodup) (hs : s.session_id ∈ idsOf db) :
    storeSessions (storeSessions db (calculateSessions events))
        (calculateSessions events)
      = storeSessions db (calculateSessions events)
  ∧ (idsOf (storeSessions db (calculateSessions events))).Nodup
  ∧ upsertOne db s = db.map (applyLast [s])
  ∧ (upsertOne db s).length = db.length := by
  have hsingle : newRows [s] (idsOf db) = [] := by
    refine newRows_nil_of_all_seen [s] (idsOf db) ?_
    intro t ht
    rw [List.mem_singleton] at ht
    rw [ht]
    exact hs
  refine ⟨?_, idsOf_storeSessions_nodup (calculateSessions events) db hnd,
    ?_, ?_⟩
  · have hnd1 := idsOf_storeSessions_nodup (calculateSessions events) db hnd
    rw [storeSessions_characterization (calculateSessions events)
      (storeSessions db (calculateSessions events)) hnd1]
    have hsub : ∀ t ∈ calculateSessions events,
        t.session_id ∈ idsOf (storeSessions db (calculateSessions events)) := by
      intro t ht
      rw [idsOf_storeSessions (calculateSessions events) db hnd]
      rcases ssIds_subset (calculateSessions events) (idsOf db) t ht with h | h
      · exact List.mem_append_left _ h
      · exact List.mem_append_right _ h
    rw [newRows_nil_of_all_seen (calculateSessions events) _ hsub,
      List.append_nil]
    rw [storeSessions_characterization (calculateSessions events) db hnd]
    rw [List.map_append]
    congr 1
    · rw [List.map_map]
      apply List.map_congr_left
      intro r _
      exact applyLast_idem (calculateSessions events) r
    · calc (newRows (calculateSessions events) (idsOf db)).map
            (applyLast (calculateSessions events))
          = (newRows (calculateSessions events) (idsOf db)).map id :=
            List.map_congr_left (fun r hr =>
              newRows_applyLast_fixed (calculateSessions events) (idsOf db) r hr)
        _ = _ := List.map_id _
  · rw [show upsertOne db s = storeSessions db [s] from rfl,
      storeSessions_characterization [s] db hnd, hsingle, List.append_nil]
  · rw [show upsertOne db s = storeSessions db [s] from rfl,
      storeSessions_characterization [s] db hnd, hsingle, List.append_nil,
      List.length_map]

/-- Witness for `storeSessions_idempotent_nodup_overwrite` at a concrete
table of one row and the example two-event input. -/
theorem storeSessions_idempotent_witness :
    storeSessions
        (storeSessions
          [rowOf ⟨("P", "C", 36000), "P", "C", 36000000000, 36300000000, 300⟩]
          (calculateSessions [Event.mk "P" "C" "entry" 36000000000,
            Event.mk "P" "C" "exit" 36300000000]))
        (calculateSessions [Event.mk "P" "C" "entry" 36000000000,
          Event.mk "P" "C" "exit" 36300000000])
      = storeSessions
          [rowOf ⟨("P", "C", 36000), "P", "C", 36000000000, 36300000000, 300⟩]
          (calculateSessions [Event.mk "P" "C" "entry" 36000000000,
            Event.mk "P" "C" "exit" 36300000000])
  ∧ (idsOf (storeSessions
      [rowOf ⟨("P", "C", 36000), "P", "C", 36000000000, 36300000000, 300⟩]
      (calculateSessions [Event.mk "P" "C" "entry" 36000000000,
        Event.mk "P" "C" "exit" 36300000000]))).Nodup
  ∧ upsertOne
      [rowOf ⟨("P", "C", 36000), "P", "C", 36000000000, 36300000000, 300⟩]
      ⟨("P", "C", 36000), "P", "C", 36000000000, 36300000000, 300⟩
    = ([rowOf ⟨("P", "C", 36000), "P", "C", 36000000000, 36300000000, 300⟩]).map
        (applyLast [⟨("P", "C", 36000), "P", "C", 36000000000, 36300000000, 300⟩])
  ∧ (upsertOne
      [rowOf ⟨("P", "C", 36000), "P", "C", 36000000000, 36300000000, 300⟩]
      ⟨("P", "C", 36000), "P", "C", 36000000000, 36300000000, 300⟩).length
    = ([rowOf ⟨("P", "C", 36000), "P", "C", 36000000000, 36300000000, 300⟩] :
        List PSRow).length :=
  storeSessions_idempotent_nodup_overwrite
    [rowOf ⟨("P", "C", 36000), "P", "C", 36000000000, 36300000000, 300⟩]
    [Event.mk "P" "C" "entry" 36000000000, Event.mk "P" "C" "exit" 36300000000]
    ⟨("P", "C", 36000), "P", "C", 36000000000, 36300000000, 300⟩
    (by decide) (by decide)

end DwellTimes
